import Mathlib

/-!
Shallow embedding of the custom-field ("EAV") engine of the obtree
repository: field definitions, field values, the value validator
(`app/core/field_validation.py`), the projection performed by the list/get
route handlers, and the field-definition / field-value mutation sections of
the route handlers in `app/api/routes/`.

Conventions of the embedding:
* identifiers (UUIDs) are `Nat`;
* timestamps (`datetime.utcnow()`) are `Nat`, passed in as a `now` argument;
* SQL `Numeric` / Python `Decimal` values are `Rat`;
* a database table is a `List` of rows, in insertion order;
* an `HTTPException` raised by a handler is an `Except` error; the
  surrounding request transaction commits on success and rolls back on an
  exception, so a handler section is a function `State → Except Err State`;
* Python runtime values reaching the validator are modelled by `PyVal`
  (the claims exercise `str`, `int` and `bool` candidates);
* the regex engine (`re.match`) is an abstract parameter: a function from
  (pattern, candidate) to a match result, where `re.error` on an invalid
  pattern is the `.invalid` result.
-/

/-- `FieldType` enum of `app/models/project_accession_field.py`:
STRING = "string", NUMBER = "number". -/
inductive FieldType where
  | string
  | number
deriving DecidableEq, Repr

/-- A FieldDefinition row (`ProjectAccessionField`, `ProjectPlantField`,
`LocationTypeField`, `EventTypeField` share this shape).  `scopeId` is the
containing `project_id` / `location_type_id` / `event_type_id`. -/
structure FieldDef where
  id : Nat
  scopeId : Nat
  fieldName : String
  fieldType : FieldType
  isRequired : Bool
  displayOrder : Int
  minLength : Option Nat
  maxLength : Option Nat
  regexPattern : Option String
  minValue : Option Rat
  maxValue : Option Rat
  isDeleted : Bool
  deletedAt : Option Nat
deriving DecidableEq, Repr

/-- A FieldValue row (`AccessionFieldValue`, `PlantFieldValue`,
`LocationFieldValue`, `EventFieldValue` share this shape).  `ownerId` is
the owning accession/plant/location/event id.  Exactly one of
`valueString` / `valueNumber` is meant to be populated, selected by the
referenced definition's `field_type`. -/
structure FieldValue where
  id : Nat
  ownerId : Nat
  fieldId : Nat
  valueString : Option String
  valueNumber : Option Rat
  createdAt : Nat
  updatedAt : Nat
deriving DecidableEq, Repr

/-- A Python runtime value submitted as a field value.  The claims
exercise `str`, `int` and `bool` candidates (`float`/`Decimal` behave as
`int` does in every checked branch). -/
inductive PyVal where
  | pstr (s : String)
  | pint (n : Int)
  | pbool (b : Bool)
deriving DecidableEq, Repr

/-- Python `str(value)`: `str` is the identity, ints print in decimal,
and `str(True) = "True"`, `str(False) = "False"`. -/
def pyStr : PyVal → String
  | .pstr s => s
  | .pint n => toString n
  | .pbool true => "True"
  | .pbool false => "False"

/-- `isinstance(value, (int, float, Decimal))` — `bool` is a subclass of
`int`, so booleans pass this check. -/
def pyIsNumeric : PyVal → Bool
  | .pstr _ => false
  | .pint _ => true
  | .pbool _ => true

/-- Numeric value of digit characters, most significant first. -/
def digitsToNat (ds : List Char) : Nat :=
  ds.foldl (fun a c => a * 10 + (c.toNat - 48)) 0

/-- `Decimal(s)` of Python's `decimal` module, for the plain decimal
strings reachable here: optional sign, integer digits, optional fractional
part.  Any other string (for example `"True"`) raises
`decimal.InvalidOperation`, modelled as `none`. -/
def decimalParse (s : String) : Option Rat :=
  let cs := s.toList
  let signed : Bool × List Char :=
    match cs with
    | '-' :: t => (true, t)
    | '+' :: t => (false, t)
    | t => (false, t)
  let ip := signed.2.takeWhile (·.isDigit)
  let rest := signed.2.dropWhile (·.isDigit)
  let mag : Option Rat :=
    match rest with
    | [] => if ip.isEmpty then none else some (digitsToNat ip : Rat)
    | '.' :: rest2 =>
      let fp := rest2.takeWhile (·.isDigit)
      let rest3 := rest2.dropWhile (·.isDigit)
      if rest3.isEmpty && !(ip.isEmpty && fp.isEmpty) then
        some ((digitsToNat ip : Rat) + (digitsToNat fp : Rat) / ((10 : Rat) ^ fp.length))
      else none
    | _ => none
  mag.map (fun m => if signed.1 then -m else m)

/-- Result of `re.match(pattern, candidate)`: a match, no match, or the
`re.error` raised when the pattern itself does not compile. -/
inductive MatchRes where
  | matched
  | noMatch
  | invalid
deriving DecidableEq, Repr

/-- Errors raised by the embedded route/validator code.
`badRequest` is `HTTPException(400, ...)`, `serverError` is
`HTTPException(500, ...)`, `notFound` is `HTTPException(404, ...)`.
`uncaughtInvalidOperation` is the `decimal.InvalidOperation` escaping from
`Decimal(str(value))`, and `uncaughtValueError` the `ValueError` escaping
from `float(value)`; neither is caught by the handlers. -/
inductive VErr where
  | badRequest (msg : String)
  | serverError (msg : String)
  | notFound (msg : String)
  | uncaughtInvalidOperation
  | uncaughtValueError
deriving DecidableEq, Repr

/-- The `min_length` check of `validate_field_value`
(`app/core/field_validation.py` lines 39-43). -/
def checkMinLength (field : FieldDef) (s : String) : Except VErr Unit :=
  match field.minLength with
  | some m =>
    if s.length < m then
      .error (.badRequest ("Field " ++ field.fieldName ++ " must be at least "
        ++ toString m ++ " characters"))
    else .ok ()
  | none => .ok ()

/-- The `max_length` check of `validate_field_value` (lines 46-50). -/
def checkMaxLength (field : FieldDef) (s : String) : Except VErr Unit :=
  match field.maxLength with
  | some m =>
    if m < s.length then
      .error (.badRequest ("Field " ++ field.fieldName ++ " must be at most "
        ++ toString m ++ " characters"))
    else .ok ()
  | none => .ok ()

/-- The `regex_pattern` check of `validate_field_value` (lines 53-65).
`if field.regex_pattern:` is a Python truthiness test, so a `None` or
empty pattern is skipped.  `re.error` from an invalid pattern is caught
and re-raised as a 500, distinct from the 400 validation failure. -/
def checkRegex (reMatch : String → String → MatchRes) (field : FieldDef)
    (s : String) : Except VErr Unit :=
  match field.regexPattern with
  | none => .ok ()
  | some p =>
    if p = "" then .ok ()
    else
      match reMatch p s with
      | .matched => .ok ()
      | .noMatch => .error (.badRequest ("Field " ++ field.fieldName
          ++ " does not match required pattern"))
      | .invalid => .error (.serverError "Invalid field validation pattern")

/-- The `min_value` check of `validate_field_value` (lines 77-81). -/
def checkMinValue (field : FieldDef) (d : Rat) : Except VErr Unit :=
  match field.minValue with
  | some mv =>
    if d < mv then
      .error (.badRequest ("Field " ++ field.fieldName ++ " must be at least "
        ++ toString mv))
    else .ok ()
  | none => .ok ()

/-- The `max_value` check of `validate_field_value` (lines 84-88). -/
def checkMaxValue (field : FieldDef) (d : Rat) : Except VErr Unit :=
  match field.maxValue with
  | some mv =>
    if mv < d then
      .error (.badRequest ("Field " ++ field.fieldName ++ " must be at most "
        ++ toString mv))
    else .ok ()
  | none => .ok ()

/-- `validate_field_value(field, value)` of
`app/core/field_validation.py` (lines 17-88), parameterized by the regex
engine.  STRING: type check, min/max length, pattern.  NUMBER: the
`isinstance(value, (int, float, Decimal))` type check, then
`value_decimal = Decimal(str(value))` — which raises an uncaught
`decimal.InvalidOperation` when `str(value)` is not a decimal numeral,
as happens for booleans — then the min/max value checks. -/
def validate_field_value (reMatch : String → String → MatchRes)
    (field : FieldDef) (value : PyVal) : Except VErr Unit :=
  match field.fieldType with
  | .string =>
    match value with
    | .pstr s => do
      checkMinLength field s
      checkMaxLength field s
      checkRegex reMatch field s
    | _ => .error (.badRequest ("Field " ++ field.fieldName ++ " must be a string"))
  | .number =>
    if pyIsNumeric value then
      match decimalParse (pyStr value) with
      | none => .error .uncaughtInvalidOperation
      | some d => do
        checkMinValue field d
        checkMaxValue field d
    else .error (.badRequest ("Field " ++ field.fieldName ++ " must be a number"))


/-- Ordering key used by `get_project_fields`:
`order_by(display_order, field_name)` — lexicographic on
`(display_order, field_name)`. -/
def fieldLE (f g : FieldDef) : Prop :=
  f.displayOrder < g.displayOrder ∨
    (f.displayOrder = g.displayOrder ∧ f.fieldName ≤ g.fieldName)

instance : DecidableRel fieldLE := fun f g => by
  unfold fieldLE; infer_instance

instance : IsTotal FieldDef fieldLE := by
  constructor
  intro f g
  unfold fieldLE
  rcases lt_trichotomy f.displayOrder g.displayOrder with h | h | h
  · exact Or.inl (Or.inl h)
  · rcases le_total f.fieldName g.fieldName with hn | hn
    · exact Or.inl (Or.inr ⟨h, hn⟩)
    · exact Or.inr (Or.inr ⟨h.symm, hn⟩)
  · exact Or.inr (Or.inl h)

instance : IsTrans FieldDef fieldLE := by
  constructor
  intro a b c hab hbc
  unfold fieldLE at *
  rcases hab with h1 | ⟨h1, hn1⟩
  · rcases hbc with h2 | ⟨h2, _⟩
    · exact Or.inl (h1.trans h2)
    · exact Or.inl (h2 ▸ h1)
  · rcases hbc with h2 | ⟨h2, hn2⟩
    · exact Or.inl (h1 ▸ h2)
    · exact Or.inr ⟨h1.trans h2, hn1.trans hn2⟩

/-- `get_project_fields(db, project_id, include_deleted)` of
`app/core/field_validation.py` (lines 130-149): filter the table to the
project, drop soft-deleted rows unless `include_deleted`, and order by
`(display_order, field_name)`. -/
def get_project_fields (db : List FieldDef) (projectId : Nat)
    (includeDeleted : Bool) : List FieldDef :=
  let q := db.filter (fun f => f.scopeId == projectId)
  let q := if includeDeleted then q else q.filter (fun f => !f.isDeleted)
  List.insertionSort fieldLE q

/-- `is_field_locked(db, field_id)` of `app/core/field_validation.py`
(lines 152-169) and the `LocationTypeField.is_locked` property: true iff
at least one FieldValue references the field. -/
def is_field_locked (values : List FieldValue) (fieldId : Nat) : Bool :=
  0 < (values.filter (fun v => v.fieldId == fieldId)).length

/-- The field names required for `projectId` but absent from the
submission, in table order — the `missing_fields` list computed by
`validate_required_fields` (lines 107-121). -/
def missingRequiredNames (db : List FieldDef) (projectId : Nat)
    (providedIds : List Nat) : List String :=
  ((db.filter (fun f => f.scopeId == projectId && f.isRequired && !f.isDeleted)).filter
    (fun f => !providedIds.contains f.id)).map (·.fieldName)

/-- `validate_required_fields(db, project_id, field_values)` of
`app/core/field_validation.py` (lines 91-127): every active required
field of the project must appear among the submitted field ids, else a
400 naming every missing field by name.
(`validate_plant_required_fields`, lines 175-213, is identical up to the
message prefix.) -/
def validate_required_fields (db : List FieldDef) (projectId : Nat)
    (fieldValues : List (Nat × PyVal)) : Except VErr Unit :=
  let missing := missingRequiredNames db projectId (fieldValues.map (·.1))
  if missing.isEmpty then .ok ()
  else .error (.badRequest ("Missing required fields: "
    ++ String.intercalate ", " missing))

/-- Database state for the accession owner kind: the
`project_accession_fields` and `accession_field_values` tables. -/
structure AccState where
  accFields : List FieldDef
  accValues : List FieldValue
deriving DecidableEq, Repr

/-- The per-value staging loop shared by `create_accession` (lines
158-183 of `app/api/routes/accessions.py`) and `update_accession` (lines
693-718): resolve the FieldDefinition (must exist in the project and not
be soft-deleted, else 400), run `validate_field_value`, and stage an
`AccessionFieldValue` whose `value_string` / `value_number` is populated
according to the definition's `field_type`.  `nextId`/`now` model the ids
and timestamps the store assigns to the new rows. -/
def stageAccessionValues (reMatch : String → String → MatchRes)
    (fields : List FieldDef) (projectId aid : Nat)
    (l : List (Nat × PyVal)) (nextId now : Nat) : Except VErr (List FieldValue) :=
  match l with
  | [] => .ok []
  | (fid, v) :: rest =>
    match fields.find? (fun f => f.id == fid && f.scopeId == projectId && !f.isDeleted) with
    | none => .error (.badRequest ("Field " ++ toString fid ++ " not found in this project"))
    | some f => do
      validate_field_value reMatch f v
      let staged ← stageAccessionValues reMatch fields projectId aid rest (nextId + 1) now
      .ok ({ id := nextId, ownerId := aid, fieldId := f.id,
             valueString := if f.fieldType == .string then some (pyStr v) else none,
             valueNumber := if f.fieldType == .number then
               (match v with
                | .pint n => some (n : Rat)
                | .pbool b => some (if b then 1 else 0)
                | .pstr _ => none) else none,
             createdAt := now, updatedAt := now } :: staged)

/-- The custom-field section of `create_accession`
(`app/api/routes/accessions.py` lines 116-185): field values are handled
only when the accession is associated to a project, and only when
`accession_data.field_values` is truthy — an absent or empty submission
is skipped entirely.  Otherwise: `validate_required_fields`, then stage
each value, then commit the staged rows. -/
def create_accession_values (reMatch : String → String → MatchRes)
    (st : AccState) (projectId : Option Nat) (aid : Nat)
    (fieldValues : Option (List (Nat × PyVal))) (nextId now : Nat) :
    Except VErr AccState :=
  match projectId with
  | none => .ok st
  | some pid =>
    match fieldValues with
    | none => .ok st
    | some l =>
      if l.isEmpty then .ok st
      else do
        validate_required_fields st.accFields pid l
        let staged ← stageAccessionValues reMatch st.accFields pid aid l nextId now
        .ok { st with accValues := st.accValues ++ staged }

/-- The custom-field section of `update_accession`
(`app/api/routes/accessions.py` lines 670-720), run when
`accession_update.field_values is not None` (an empty list does run it):
reject when the accession has no project association, run
`validate_required_fields`, delete all existing values of the accession,
stage each submitted value, and commit — in one transaction, so an
exception anywhere rolls everything back. -/
def update_accession_values (reMatch : String → String → MatchRes)
    (st : AccState) (projectId : Option Nat) (aid : Nat)
    (fieldValues : Option (List (Nat × PyVal))) (nextId now : Nat) :
    Except VErr AccState :=
  match fieldValues with
  | none => .ok st
  | some l =>
    match projectId with
    | none => .error (.badRequest
        "Cannot update field values for accession without project association")
    | some pid => do
      validate_required_fields st.accFields pid l
      let staged ← stageAccessionValues reMatch st.accFields pid aid l nextId now
      .ok { st with accValues :=
              (st.accValues.filter (fun fv => fv.ownerId != aid)) ++ staged }

/-- Request-transaction semantics of the surrounding framework: a handler
section runs inside a single store transaction, committed on success;
an `HTTPException` aborts the request and the uncommitted transaction is
discarded, leaving the state unchanged. -/
def runTxn {σ : Type} (st : σ) (r : Except VErr σ) : σ × Option VErr :=
  match r with
  | .ok st' => (st', none)
  | .error e => (st, some e)

/-- A projected field row, the `AccessionFieldValueResponse` built by
`list_accessions` / `get_accession`: `id` is `None` for placeholder rows
of fields that have no value yet. -/
structure ProjRow where
  id : Option Nat
  accessionId : Nat
  fieldId : Nat
  fieldName : String
  fieldType : FieldType
  value : Option (String ⊕ Rat)
  createdAt : Nat
  updatedAt : Nat
deriving DecidableEq, Repr

/-- The `value` property of `AccessionFieldValue`
(`app/models/accession_field_value.py`): `value_string` when the
referenced field is STRING, `value_number` when it is NUMBER. -/
def extractValue (f : FieldDef) (fv : FieldValue) : Option (String ⊕ Rat) :=
  match f.fieldType with
  | .string => fv.valueString.map Sum.inl
  | .number => fv.valueNumber.map Sum.inr

/-- The field-value projection of `list_accessions` / `get_accession`
(`app/api/routes/accessions.py` lines 272-320 and 437-488).  With a
project: fetch the active project fields via `get_project_fields`, index
the accession's own values by `field_id`, and emit one row per field —
the existing value's row when one exists, otherwise a placeholder row
with a `None` id, `None` value, and `created_at = updated_at =
datetime.utcnow()` evaluated at projection time (the `now` argument).
Without a project: emit only the accession's existing values (the row's
`field_name`/`field_type`/`value` come from the value's `field`
relationship). -/
def project_accession_rows (db : List FieldDef) (values : List FieldValue)
    (aid : Nat) (projectId : Option Nat) (now : Nat) : List ProjRow :=
  let own := values.filter (fun fv => fv.ownerId == aid)
  match projectId with
  | some pid =>
    (get_project_fields db pid false).map (fun f =>
      match own.find? (fun fv => fv.fieldId == f.id) with
      | some fv =>
        { id := some fv.id, accessionId := fv.ownerId, fieldId := fv.fieldId,
          fieldName := f.fieldName, fieldType := f.fieldType,
          value := extractValue f fv,
          createdAt := fv.createdAt, updatedAt := fv.updatedAt }
      | none =>
        { id := none, accessionId := aid, fieldId := f.id,
          fieldName := f.fieldName, fieldType := f.fieldType,
          value := none, createdAt := now, updatedAt := now })
  | none =>
    own.map (fun fv =>
      { id := some fv.id, accessionId := fv.ownerId, fieldId := fv.fieldId,
        fieldName := ((db.find? (fun f => f.id == fv.fieldId)).map (·.fieldName)).getD "",
        fieldType := ((db.find? (fun f => f.id == fv.fieldId)).map (·.fieldType)).getD .string,
        value := match db.find? (fun f => f.id == fv.fieldId) with
                 | some f => extractValue f fv
                 | none => none,
        createdAt := fv.createdAt, updatedAt := fv.updatedAt })

/-- Erases the call-time `utcnow()` timestamps of placeholder rows
(rows with a `None` id), leaving every other row untouched. -/
def scrubPlaceholderTimes (r : ProjRow) : ProjRow :=
  if r.id = none then { r with createdAt := 0, updatedAt := 0 } else r

/-- Database state for the location owner kind: the
`location_type_fields` and `location_field_values` tables. -/
structure LocState where
  locFields : List FieldDef
  locValues : List FieldValue
deriving DecidableEq, Repr

/-- `float(value)` applied to a submitted value by the location and
event value writers: numeric values convert (booleans as 1.0/0.0), a
string converts when it is a decimal numeral and otherwise raises an
uncaught `ValueError`, modelled as `none`. -/
def pyFloat : PyVal → Option Rat
  | .pint n => some (n : Rat)
  | .pbool b => some (if b then 1 else 0)
  | .pstr s => decimalParse s

/-- The per-value staging loop of `create_location`
(`app/api/routes/locations.py` lines 168-186) and `update_location`
(lines 344-359): resolve the field among the location type's *active*
fields (else 400), then store `value_string = str(value)` for a STRING
field or `value_number = float(value)` for a NUMBER field — with no
`validate_field_value` call, so length/pattern/range constraints are
never checked on this path. -/
def stageLocationValues (activeFields : List FieldDef) (lid : Nat)
    (l : List (Nat × PyVal)) (nextId now : Nat) : Except VErr (List FieldValue) :=
  match l with
  | [] => .ok []
  | (fid, v) :: rest =>
    match activeFields.find? (fun f => f.id == fid) with
    | none => .error (.badRequest ("Field " ++ toString fid
        ++ " not found in location type"))
    | some f => do
      let num ← if f.fieldType == .number then
          match pyFloat v with
          | none => Except.error VErr.uncaughtValueError
          | some q => Except.ok (some q)
        else Except.ok none
      let staged ← stageLocationValues activeFields lid rest (nextId + 1) now
      .ok ({ id := nextId, ownerId := lid, fieldId := f.id,
             valueString := if f.fieldType == .string then some (pyStr v) else none,
             valueNumber := num,
             createdAt := now, updatedAt := now } :: staged)

/-- The field-value section of `create_location`
(`app/api/routes/locations.py` lines 141-188): the required-field check
always runs (even for an absent submission) but its 400 carries only the
fixed message "Missing required fields"; then each value is staged
against the active fields of the location type and committed. -/
def create_location_values (st : LocState) (ltid lid : Nat)
    (fieldValues : Option (List (Nat × PyVal))) (nextId now : Nat) :
    Except VErr LocState :=
  let activeFields := st.locFields.filter (fun f => f.scopeId == ltid && !f.isDeleted)
  let requiredIds := (activeFields.filter (·.isRequired)).map (·.id)
  let providedIds := (fieldValues.getD []).map (·.1)
  if requiredIds.any (fun i => !providedIds.contains i) then
    .error (.badRequest "Missing required fields")
  else
    match fieldValues with
    | none => .ok st
    | some l => do
      let staged ← stageLocationValues activeFields lid l nextId now
      .ok { st with locValues := st.locValues ++ staged }

/-- The field-value section of `update_location`
(`app/api/routes/locations.py` lines 335-359), run when
`location_update.field_values is not None`: all existing values of the
location are deleted and the submitted ones staged against the location
type's active fields, inside the single request transaction — an
exception anywhere rolls the whole replacement back.  (No
required-field check and no `validate_field_value` call happen on this
path.) -/
def update_location_values (st : LocState) (ltid lid : Nat)
    (fieldValues : Option (List (Nat × PyVal))) (nextId now : Nat) :
    Except VErr LocState :=
  match fieldValues with
  | none => .ok st
  | some l => do
    let activeFields := st.locFields.filter (fun f => f.scopeId == ltid && !f.isDeleted)
    let staged ← stageLocationValues activeFields lid l nextId now
    .ok { st with locValues := (st.locValues.filter (fun fv => fv.ownerId != lid)) ++ staged }

/-- Database state for the event owner kind: the `event_type_fields` and
`event_field_values` tables. -/
structure EventState where
  eventFields : List FieldDef
  eventValues : List FieldValue
deriving DecidableEq, Repr

/-- The per-value staging loop of `create_plant_event`
(`app/api/routes/plant_events.py` lines 357-386) and
`update_plant_event` (lines 580-611): the field lookup filters only on
`id` and `event_type_id` — soft-deleted fields are *not* excluded — and
no `validate_field_value` call is made; STRING fields store
`str(value)`, NUMBER fields store `float(value)`. -/
def stageEventValues (fields : List FieldDef) (etid evid : Nat)
    (l : List (Nat × PyVal)) (nextId now : Nat) : Except VErr (List FieldValue) :=
  match l with
  | [] => .ok []
  | (fid, v) :: rest =>
    match fields.find? (fun f => f.id == fid && f.scopeId == etid) with
    | none => .error (.badRequest ("Invalid field ID: " ++ toString fid))
    | some f => do
      let num ← if f.fieldType == .number then
          match pyFloat v with
          | none => Except.error VErr.uncaughtValueError
          | some q => Except.ok (some q)
        else Except.ok none
      let staged ← stageEventValues fields etid evid rest (nextId + 1) now
      .ok ({ id := nextId, ownerId := evid, fieldId := f.id,
             valueString := if f.fieldType == .string then some (pyStr v) else none,
             valueNumber := num,
             createdAt := now, updatedAt := now } :: staged)

/-- The field-value section of `create_plant_event`
(`app/api/routes/plant_events.py` lines 329-388): the required-field
check (active required fields of the event type, naming the missing
fields) always runs; each submitted value is then staged via
`stageEventValues` — which accepts soft-deleted fields — and committed. -/
def create_plant_event_values (st : EventState) (etid evid : Nat)
    (fieldValues : Option (List (Nat × PyVal))) (nextId now : Nat) :
    Except VErr EventState :=
  let requiredFields := st.eventFields.filter
    (fun f => f.scopeId == etid && f.isRequired && !f.isDeleted)
  let providedIds := (fieldValues.getD []).map (·.1)
  let missing := (requiredFields.filter (fun f => !providedIds.contains f.id)).map (·.fieldName)
  if !missing.isEmpty then
    .error (.badRequest ("Missing required fields: " ++ String.intercalate ", " missing))
  else
    match fieldValues with
    | none => .ok st
    | some l => do
      let staged ← stageEventValues st.eventFields etid evid l nextId now
      .ok { st with eventValues := st.eventValues ++ staged }

/-- The payload of `ProjectAccessionFieldCreate`
(`app/schemas/project_accession_field.py`): a new field's attributes.
The create schema does include `field_type`. -/
structure FieldCreateData where
  fieldName : String
  fieldType : FieldType
  isRequired : Bool
  displayOrder : Int
  minLength : Option Nat
  maxLength : Option Nat
  regexPattern : Option String
  minValue : Option Rat
  maxValue : Option Rat
deriving DecidableEq, Repr

/-- The payload of `ProjectAccessionFieldUpdate`
(`app/schemas/project_accession_field.py` lines 56-67).  The update
schema has *no* `field_type` attribute, so a PATCH can never carry a
type change on this path (pydantic silently drops unknown keys).  An
outer `none` means the attribute was omitted from the patch
(`exclude_unset`); for the nullable constraint columns the inner
`Option` is the new column value. -/
structure AccFieldPatch where
  fieldName : Option String
  isRequired : Option Bool
  displayOrder : Option Int
  minLength : Option (Option Nat)
  maxLength : Option (Option Nat)
  regexPattern : Option (Option String)
  minValue : Option (Option Rat)
  maxValue : Option (Option Rat)
deriving DecidableEq, Repr

/-- `setattr(field, ...)` application of a partial update: attributes
omitted from the patch are untouched. -/
def applyAccFieldPatch (f : FieldDef) (p : AccFieldPatch) : FieldDef :=
  { f with
    fieldName := p.fieldName.getD f.fieldName,
    isRequired := p.isRequired.getD f.isRequired,
    displayOrder := p.displayOrder.getD f.displayOrder,
    minLength := p.minLength.getD f.minLength,
    maxLength := p.maxLength.getD f.maxLength,
    regexPattern := p.regexPattern.getD f.regexPattern,
    minValue := p.minValue.getD f.minValue,
    maxValue := p.maxValue.getD f.maxValue }

/-- `create_project_field` (`app/api/routes/project_fields.py` lines
82-177), duplicate-name section onward: reject when an *active*
(non-deleted) field of the project already has the submitted name —
soft-deleted fields do not block reuse — else insert the new field with
`is_deleted = false`.
(`create_project_plant_field` is identical up to messages.) -/
def create_project_field (db : List FieldDef) (pid : Nat)
    (data : FieldCreateData) (newId : Nat) : Except VErr (List FieldDef) :=
  match db.find? (fun f => f.scopeId == pid && f.fieldName == data.fieldName
      && !f.isDeleted) with
  | some _ => .error (.badRequest ("Field " ++ data.fieldName
      ++ " already exists in this project"))
  | none =>
    .ok (db ++
      [{ id := newId, scopeId := pid,
         fieldName := data.fieldName, fieldType := data.fieldType,
         isRequired := data.isRequired, displayOrder := data.displayOrder,
         minLength := data.minLength, maxLength := data.maxLength,
         regexPattern := data.regexPattern, minValue := data.minValue,
         maxValue := data.maxValue, isDeleted := false, deletedAt := none }])

/-- `update_project_field` (`app/api/routes/project_fields.py` lines
180-280), after the permission/ownership checks: 404 when the field does
not exist, 400 when it belongs to another project; when the patch renames
the field, reject a name already used by a *different* active field of
the project; then apply all patched attributes.  There is no lock check
on this path, and the patch schema cannot carry a `field_type`.
(`update_project_plant_field` is identical up to messages.) -/
def update_project_field (db : List FieldDef) (pid fid : Nat)
    (patch : AccFieldPatch) : Except VErr (List FieldDef) :=
  match db.find? (fun f => f.id == fid) with
  | none => .error (.notFound "Field not found")
  | some f =>
    if f.scopeId != pid then
      .error (.badRequest "Field does not belong to this project")
    else
      let nameConflict :=
        match patch.fieldName with
        | some n =>
          if n != "" && n != f.fieldName then
            (db.find? (fun (g : FieldDef) => g.scopeId == pid && g.fieldName == n
              && !g.isDeleted && g.id != fid)).isSome
          else false
        | none => false
      if nameConflict then
        .error (.badRequest ("Field " ++ patch.fieldName.getD ""
          ++ " already exists in this project"))
      else
        .ok (db.map (fun g => if g.id == fid then applyAccFieldPatch g patch else g))

/-- One entry of `LocationTypeUpdate.fields`
(`LocationTypeFieldUpdate`): an id for an existing field (or none for a
new one) plus the full attribute set — this batch schema *does* carry
`field_type`. -/
structure LocFieldPatch where
  id : Option Nat
  fieldName : String
  fieldType : FieldType
  isRequired : Bool
  displayOrder : Int
  minLength : Option Nat
  maxLength : Option Nat
  regexPattern : Option String
  minValue : Option Rat
  maxValue : Option Rat
deriving DecidableEq, Repr

/-- The `fields` section of `update_organization_location_type`
(`app/api/routes/organization_location_types.py` lines 303-344): fields
of the location type absent from the batch are soft-deleted; an entry
whose id matches an existing field overwrites *all* nine attributes —
`field_type` included, with no lock check and no name-collision check —
and an entry without a matching id is inserted as a new field (fresh ids
from `nextId`).  The function is total: this path raises no
field-related error. -/
def update_location_type_fields (db : List FieldDef) (ltid : Nat)
    (patches : List LocFieldPatch) (nextId now : Nat) : List FieldDef :=
  let existingIds := (db.filter (fun f => f.scopeId == ltid)).map (·.id)
  let updateIds := patches.filterMap (·.id)
  let db := db.map (fun f =>
    if f.scopeId == ltid && !updateIds.contains f.id && !f.isDeleted then
      { f with isDeleted := true, deletedAt := some now }
    else f)
  let db := db.map (fun f =>
    match patches.find? (fun p => p.id == some f.id) with
    | some p =>
      if f.scopeId == ltid then
        { f with
          fieldName := p.fieldName, fieldType := p.fieldType,
          isRequired := p.isRequired, displayOrder := p.displayOrder,
          minLength := p.minLength, maxLength := p.maxLength,
          regexPattern := p.regexPattern, minValue := p.minValue,
          maxValue := p.maxValue }
      else f
    | none => f)
  let newOnes := (patches.filter (fun p =>
      match p.id with
      | some i => !existingIds.contains i
      | none => true)).enum.map (fun pi =>
    { id := nextId + pi.1, scopeId := ltid,
      fieldName := pi.2.fieldName, fieldType := pi.2.fieldType,
      isRequired := pi.2.isRequired, displayOrder := pi.2.displayOrder,
      minLength := pi.2.minLength, maxLength := pi.2.maxLength,
      regexPattern := pi.2.regexPattern, minValue := pi.2.minValue,
      maxValue := pi.2.maxValue, isDeleted := false, deletedAt := none })
  db ++ newOnes

/-- A FieldDefinition with the given identity and type and no
constraints — the base fixture for concrete test states. -/
def mkField (i scope : Nat) (name : String) (ty : FieldType) : FieldDef :=
  { id := i, scopeId := scope, fieldName := name, fieldType := ty,
    isRequired := false, displayOrder := 0,
    minLength := none, maxLength := none, regexPattern := none,
    minValue := none, maxValue := none, isDeleted := false, deletedAt := none }

/-- A regex engine stub for concrete evaluations: every pattern matches. -/
def matchAll : String → String → MatchRes := fun _ _ => .matched

instance {ε α : Type} [DecidableEq ε] [DecidableEq α] : DecidableEq (Except ε α) := fun a b =>
  match a, b with
  | .ok x, .ok y => decidable_of_iff (x = y) (by simp)
  | .error x, .error y => decidable_of_iff (x = y) (by simp)
  | .ok _, .error _ => isFalse (fun h => Except.noConfusion h)
  | .error _, .ok _ => isFalse (fun h => Except.noConfusion h)

/-- C1: a FieldDefinition with an existing FieldValue is locked
(`is_field_locked` is true), yet the location-type batch field update
applies a submitted `field_type` change to it unconditionally and raises
no error — the field comes out with the new type — contradicting the
claimed LockedTypeChangeError rejection (and the
`LocationTypeField.is_locked` documentation in the source). -/
theorem locked_location_type_change_applied :
    is_field_locked [⟨10, 20, 1, some "x", none, 0, 0⟩] 1 = true ∧
    (update_location_type_fields [mkField 1 5 "Height" FieldType.string] 5
        [{ id := some 1, fieldName := "Height", fieldType := FieldType.number,
           isRequired := false, displayOrder := 0, minLength := none,
           maxLength := none, regexPattern := none, minValue := none,
           maxValue := none }] 100 0).map
      (fun f => (f.id, f.fieldType, f.isDeleted)) =
      [(1, FieldType.number, false)] := by decide

/-- C2 counterexample: submitting the string "xx" for a location STRING
field with `max_length = 1` succeeds and persists the out-of-bounds
value — the location create path never calls `validate_field_value`,
which would have raised the max-length violation. -/
theorem location_value_bypasses_constraints :
    validate_field_value matchAll
      { mkField 1 3 "Code" FieldType.string with maxLength := some 1 } (.pstr "xx")
      = .error (.badRequest "Field Code must be at most 1 characters") ∧
    create_location_values
      ⟨[{ mkField 1 3 "Code" FieldType.string with maxLength := some 1 }], []⟩
      3 7 (some [(1, .pstr "xx")]) 50 9
      = .ok ⟨[{ mkField 1 3 "Code" FieldType.string with maxLength := some 1 }],
             [⟨50, 7, 1, some "xx", none, 9, 9⟩]⟩ := by decide

/-- C3 counterexample: on the event path, a value submitted against a
soft-deleted EventTypeField is accepted and a new FieldValue for the
deleted field is persisted — the field lookup in `create_plant_event`
does not filter on `is_deleted`. -/
theorem event_value_accepts_deleted_field :
    create_plant_event_values
      ⟨[{ mkField 1 7 "Notes" FieldType.string with isDeleted := true, deletedAt := some 4 }], []⟩
      7 9 (some [(1, .pstr "x")]) 40 5
      = .ok ⟨[{ mkField 1 7 "Notes" FieldType.string with isDeleted := true, deletedAt := some 4 }],
             [⟨40, 9, 1, some "x", none, 5, 5⟩]⟩ := by decide

/-- C4 counterexample: with an active required field in the project, the
empty submission on accession create succeeds without any error — the
`if accession_data.field_values:` guard skips the required-field check
entirely for an empty list — even though the required-field computation
itself would report the field as missing. -/
theorem accession_create_empty_submission_skips_required :
    missingRequiredNames [{ mkField 1 2 "Height" FieldType.number with isRequired := true }] 2 []
      = ["Height"] ∧
    create_accession_values matchAll
      ⟨[{ mkField 1 2 "Height" FieldType.number with isRequired := true }], []⟩
      (some 2) 11 (some []) 0 0
      = .ok ⟨[{ mkField 1 2 "Height" FieldType.number with isRequired := true }], []⟩ := by decide

/-- C5 counterexample: two projections of the same unchanged data taken
at different times differ — the placeholder row for a field without a
value carries `created_at = updated_at = utcnow()` stamped at call
time. -/
theorem projection_placeholder_timestamps_differ :
    project_accession_rows [mkField 1 2 "Notes" FieldType.string] [] 9 (some 2) 0 ≠
    project_accession_rows [mkField 1 2 "Notes" FieldType.string] [] 9 (some 2) 1 := by decide

/-- C7 counterexample: the location-type batch field update creates a
second active field with the same name as an existing active field of
the same location type without any error — it performs no
name-collision check. -/
theorem location_type_batch_duplicate_names :
    (update_location_type_fields [mkField 1 5 "A" FieldType.string] 5
        [{ id := some 1, fieldName := "A", fieldType := FieldType.string,
           isRequired := false, displayOrder := 0, minLength := none,
           maxLength := none, regexPattern := none, minValue := none, maxValue := none },
         { id := none, fieldName := "A", fieldType := FieldType.string,
           isRequired := false, displayOrder := 1, minLength := none,
           maxLength := none, regexPattern := none, minValue := none, maxValue := none }]
        30 0).map (fun f => (f.id, f.scopeId, f.fieldName, f.isDeleted)) =
      [(1, 5, "A", false), (30, 5, "A", false)] := by decide

/-- C10 counterexample: for a NUMBER field with bounds [0, 2], the
boolean True — which the claim says is compared as the decimal 1 and so
would be accepted — instead makes `validate_field_value` fail with the
uncaught `decimal.InvalidOperation` from `Decimal(str(True))`. -/
theorem validate_number_bool_crashes :
    validate_field_value matchAll
      { mkField 1 2 "Height" FieldType.number with minValue := some 0, maxValue := some 2 }
      (.pbool true) = .error .uncaughtInvalidOperation ∧
    (Except.error VErr.uncaughtInvalidOperation : Except VErr Unit) ≠ .ok () := by decide

theorem checkMinLength_ok_iff (f : FieldDef) (s : String) :
    checkMinLength f s = .ok () ↔ ∀ m, f.minLength = some m → m ≤ s.length := by
  unfold checkMinLength
  split
  next m heq =>
    rw [heq]
    split
    next hlt =>
      constructor
      · intro hc; exact Except.noConfusion hc
      · intro hall; exact absurd (hall m rfl) (by omega)
    next hlt =>
      constructor
      · intro _ m' hm'; injection hm' with e; omega
      · intro _; rfl
  next heq =>
    rw [heq]
    simp

theorem checkMaxLength_ok_iff (f : FieldDef) (s : String) :
    checkMaxLength f s = .ok () ↔ ∀ m, f.maxLength = some m → s.length ≤ m := by
  unfold checkMaxLength
  split
  next m heq =>
    rw [heq]
    split
    next hlt =>
      constructor
      · intro hc; exact Except.noConfusion hc
      · intro hall; exact absurd (hall m rfl) (by omega)
    next hlt =>
      constructor
      · intro _ m' hm'; injection hm' with e; omega
      · intro _; rfl
  next heq =>
    rw [heq]
    simp

theorem checkRegex_ok_iff (reMatch : String → String → MatchRes) (f : FieldDef) (s : String)
    (hempty : reMatch "" s = .matched) :
    checkRegex reMatch f s = .ok () ↔
      ∀ p, f.regexPattern = some p → reMatch p s = .matched := by
  unfold checkRegex
  split
  next heq =>
    rw [heq]
    simp
  next p heq =>
    rw [heq]
    by_cases hp : p = ""
    · subst hp
      rw [if_pos rfl]
      constructor
      · intro _ q hq; injection hq with e; subst e; exact hempty
      · intro _; rfl
    · rw [if_neg hp]
      cases hm : reMatch p s with
      | matched =>
        constructor
        · intro _ q hq; injection hq with e; subst e; exact hm
        · intro _; rfl
      | noMatch =>
        constructor
        · intro hc; exact Except.noConfusion hc
        · intro hall
          have hq := hall p rfl
          rw [hm] at hq
          exact MatchRes.noConfusion hq
      | invalid =>
        constructor
        · intro hc; exact Except.noConfusion hc
        · intro hall
          have hq := hall p rfl
          rw [hm] at hq
          exact MatchRes.noConfusion hq

theorem checkMinLength_classify (f : FieldDef) (s : String) :
    checkMinLength f s = .ok () ∨ ∃ msg, checkMinLength f s = .error (.badRequest msg) := by
  unfold checkMinLength
  split
  next m heq =>
    split
    next hlt => exact Or.inr ⟨_, rfl⟩
    next hlt => exact Or.inl rfl
  next heq => exact Or.inl rfl

theorem checkMaxLength_classify (f : FieldDef) (s : String) :
    checkMaxLength f s = .ok () ∨ ∃ msg, checkMaxLength f s = .error (.badRequest msg) := by
  unfold checkMaxLength
  split
  next m heq =>
    split
    next hlt => exact Or.inr ⟨_, rfl⟩
    next hlt => exact Or.inl rfl
  next heq => exact Or.inl rfl

theorem checkRegex_classify (reMatch : String → String → MatchRes) (f : FieldDef) (s : String) :
    checkRegex reMatch f s = .ok () ∨
      (∃ msg, checkRegex reMatch f s = .error (.badRequest msg)) ∨
      checkRegex reMatch f s = .error (.serverError "Invalid field validation pattern") := by
  unfold checkRegex
  split
  next heq => exact Or.inl rfl
  next p heq =>
    by_cases hp : p = ""
    · rw [if_pos hp]; exact Or.inl rfl
    · rw [if_neg hp]
      cases reMatch p s with
      | matched => exact Or.inl rfl
      | noMatch => exact Or.inr (Or.inl ⟨_, rfl⟩)
      | invalid => exact Or.inr (Or.inr rfl)

theorem validate_string_unfold (reMatch : String → String → MatchRes)
    (field : FieldDef) (s : String) (hty : field.fieldType = .string) :
    validate_field_value reMatch field (.pstr s) =
      (match checkMinLength field s with
       | .error e => .error e
       | .ok _ =>
         match checkMaxLength field s with
         | .error e => .error e
         | .ok _ => checkRegex reMatch field s) := by
  unfold validate_field_value
  rw [hty]
  show (checkMinLength field s >>= fun _ =>
        checkMaxLength field s >>= fun _ =>
        checkRegex reMatch field s) = _
  cases checkMinLength field s <;> cases checkMaxLength field s <;> rfl

/-- C9: for a STRING FieldDefinition, `validate_field_value` accepts a
string candidate iff every non-null bound holds and the pattern (when
set) matches at the start; when the bounds hold but the pattern is
syntactically invalid, the result is the 500 "Invalid field validation
pattern" server error; every rejection is either a 400 validation
failure or that 500, and the two are distinct. -/
theorem validate_string_spec (reMatch : String → String → MatchRes)
    (field : FieldDef) (s : String)
    (hty : field.fieldType = .string)
    (hempty : reMatch "" s = .matched) :
    (validate_field_value reMatch field (.pstr s) = .ok () ↔
      ((∀ m, field.minLength = some m → m ≤ s.length) ∧
       (∀ m, field.maxLength = some m → s.length ≤ m) ∧
       (∀ p, field.regexPattern = some p → reMatch p s = .matched)))
    ∧ (∀ p, field.regexPattern = some p → reMatch p s = .invalid →
        (∀ m, field.minLength = some m → m ≤ s.length) →
        (∀ m, field.maxLength = some m → s.length ≤ m) →
        validate_field_value reMatch field (.pstr s)
          = .error (.serverError "Invalid field validation pattern"))
    ∧ (validate_field_value reMatch field (.pstr s) = .ok () ∨
       (∃ msg, validate_field_value reMatch field (.pstr s) = .error (.badRequest msg)) ∨
       validate_field_value reMatch field (.pstr s)
         = .error (.serverError "Invalid field validation pattern"))
    ∧ (∀ msg, (VErr.serverError "Invalid field validation pattern") ≠ VErr.badRequest msg) := by
  have e1 := checkMinLength_ok_iff field s
  have e2 := checkMaxLength_ok_iff field s
  have e3 := checkRegex_ok_iff reMatch field s hempty
  have hu := validate_string_unfold reMatch field s hty
  refine ⟨?_, ?_, ?_, ?_⟩
  · rw [hu]
    cases h1 : checkMinLength field s with
    | error e =>
      constructor
      · intro hc; exact Except.noConfusion hc
      · rintro ⟨c1, _, _⟩
        have := e1.mpr c1
        rw [h1] at this
        exact Except.noConfusion this
    | ok u =>
      cases u
      cases h2 : checkMaxLength field s with
      | error e =>
        constructor
        · intro hc; exact Except.noConfusion hc
        · rintro ⟨_, c2, _⟩
          have := e2.mpr c2
          rw [h2] at this
          exact Except.noConfusion this
      | ok v =>
        cases v
        constructor
        · intro hr
          exact ⟨e1.mp h1, e2.mp h2, e3.mp hr⟩
        · rintro ⟨_, _, c3⟩
          exact e3.mpr c3
  · intro p hp hinv c1 c2
    have h1 := e1.mpr c1
    have h2 := e2.mpr c2
    rw [hu]
    rw [h1]
    simp only []
    rw [h2]
    simp only []
    have hpne : p ≠ "" := by
      intro hcon
      subst hcon
      rw [hempty] at hinv
      exact MatchRes.noConfusion hinv
    unfold checkRegex
    rw [hp]
    simp only [if_neg hpne]
    rw [hinv]
  · rw [hu]
    rcases checkMinLength_classify field s with h1 | ⟨m1, h1⟩
    · rw [h1]
      simp only []
      rcases checkMaxLength_classify field s with h2 | ⟨m2, h2⟩
      · rw [h2]
        simp only []
        exact checkRegex_classify reMatch field s
      · rw [h2]
        exact Or.inr (Or.inl ⟨m2, rfl⟩)
    · rw [h1]
      exact Or.inr (Or.inl ⟨m1, rfl⟩)
  · intro msg hc
    exact VErr.noConfusion hc

/-- C10 amended: for a NUMBER FieldDefinition, the booleans pass the
`isinstance` type check (no "must be a number" error is raised), but
`Decimal(str(value))` then raises an uncaught `decimal.InvalidOperation`
— `str(True)`/`str(False)` are not decimal numerals — so booleans are
never compared against `min_value`/`max_value`. -/
theorem validate_number_bool_invalid_operation (reMatch : String → String → MatchRes)
    (field : FieldDef) (b : Bool) (hty : field.fieldType = .number) :
    validate_field_value reMatch field (.pbool b) = .error .uncaughtInvalidOperation := by
  cases b <;> (unfold validate_field_value; rw [hty]; rfl)

theorem except_bind_ok {ε α β : Type} (a : α) (k : α → Except ε β) :
    (Except.ok a >>= k) = k a := rfl

theorem except_bind_error {ε α β : Type} (e : ε) (k : α → Except ε β) :
    ((Except.error e : Except ε α) >>= k) = Except.error e := rfl

theorem stageAccessionValues_cons (reMatch : String → String → MatchRes)
    (fields : List FieldDef) (pid aid fid : Nat) (v : PyVal)
    (rest : List (Nat × PyVal)) (nextId now : Nat) :
    stageAccessionValues reMatch fields pid aid ((fid, v) :: rest) nextId now =
      (match fields.find? (fun f => f.id == fid && f.scopeId == pid && !f.isDeleted) with
       | none => .error (.badRequest ("Field " ++ toString fid ++ " not found in this project"))
       | some f =>
         match validate_field_value reMatch f v with
         | .error e => .error e
         | .ok _ =>
           match stageAccessionValues reMatch fields pid aid rest (nextId + 1) now with
           | .error e => .error e
           | .ok staged =>
             .ok ({ id := nextId, ownerId := aid, fieldId := f.id,
                    valueString := if f.fieldType == .string then some (pyStr v) else none,
                    valueNumber := if f.fieldType == .number then
                      (match v with
                       | .pint n => some (n : Rat)
                       | .pbool b => some (if b then 1 else 0)
                       | .pstr _ => none) else none,
                    createdAt := now, updatedAt := now } :: staged)) := by
  simp only [stageAccessionValues]
  split
  next => rfl
  next f hf =>
    cases hv : validate_field_value reMatch f v with
    | error e => rfl
    | ok u =>
      cases u
      cases hr : stageAccessionValues reMatch fields pid aid rest (nextId + 1) now with
      | error e => rfl
      | ok staged => rfl

theorem stageAccessionValues_ok_mem (reMatch : String → String → MatchRes)
    (fields : List FieldDef) (pid aid : Nat) (l : List (Nat × PyVal))
    (nextId now : Nat) :
    ∀ staged, stageAccessionValues reMatch fields pid aid l nextId now = .ok staged →
      ∀ fid v, (fid, v) ∈ l →
        ∃ f ∈ fields, f.id = fid ∧ f.scopeId = pid ∧ f.isDeleted = false ∧
          validate_field_value reMatch f v = .ok () := by
  induction l generalizing nextId with
  | nil =>
    intro staged _ fid v hm
    simp at hm
  | cons hd tl ih =>
    obtain ⟨fid0, v0⟩ := hd
    intro staged h fid v hm
    rw [stageAccessionValues_cons] at h
    split at h
    · exact Except.noConfusion h
    next f hf =>
      split at h
      · exact Except.noConfusion h
      next u hv =>
        split at h
        · exact Except.noConfusion h
        next staged' hr =>
          rcases List.mem_cons.mp hm with heq | hmem
          · injection heq with e1 e2
            subst e1
            subst e2
            have hfin := List.mem_of_find?_eq_some hf
            have hpred := List.find?_some hf
            simp only [Bool.and_eq_true, beq_iff_eq, Bool.not_eq_true'] at hpred
            obtain ⟨⟨hid, hsc⟩, hdel⟩ := hpred
            cases u
            exact ⟨f, hfin, hid, hsc, hdel, hv⟩
          · exact ih (nextId + 1) staged' hr fid v hmem

theorem create_accession_values_cons (reMatch : String → String → MatchRes)
    (st : AccState) (pid aid : Nat) (hd : Nat × PyVal) (tl : List (Nat × PyVal))
    (nextId now : Nat) :
    create_accession_values reMatch st (some pid) aid (some (hd :: tl)) nextId now =
      (match validate_required_fields st.accFields pid (hd :: tl) with
       | .error e => .error e
       | .ok _ =>
         match stageAccessionValues reMatch st.accFields pid aid (hd :: tl) nextId now with
         | .error e => .error e
         | .ok staged => .ok { st with accValues := st.accValues ++ staged }) := by
  simp only [create_accession_values, List.isEmpty_cons, Bool.false_eq_true, if_false]
  cases hreq : validate_required_fields st.accFields pid (hd :: tl) with
  | error e => rfl
  | ok u =>
    cases u
    cases hstage : stageAccessionValues reMatch st.accFields pid aid (hd :: tl) nextId now with
    | error e => rfl
    | ok staged => rfl

/-- C2 amended: on the accession create path, every persisted value was
validated — a successful create implies that each submitted value
resolved to an active FieldDefinition of the accession's project and
passed `validate_field_value` against that definition's constraints.
(The location and event paths provide no such guarantee; see the
counterexample.) -/
theorem accession_create_values_validated (reMatch : String → String → MatchRes)
    (st : AccState) (pid aid : Nat) (l : List (Nat × PyVal)) (nextId now : Nat)
    (st' : AccState)
    (h : create_accession_values reMatch st (some pid) aid (some l) nextId now = .ok st') :
    ∀ fid v, (fid, v) ∈ l →
      ∃ f ∈ st.accFields, f.id = fid ∧ f.scopeId = pid ∧ f.isDeleted = false ∧
        validate_field_value reMatch f v = .ok () := by
  intro fid v hm
  cases l with
  | nil => simp at hm
  | cons hd tl =>
    rw [create_accession_values_cons] at h
    split at h
    · exact Except.noConfusion h
    next u hreq =>
      split at h
      · exact Except.noConfusion h
      next staged hstage =>
        exact stageAccessionValues_ok_mem reMatch st.accFields pid aid (hd :: tl)
          nextId now staged hstage fid v hm

/-- C3 amended: on the accession path, a value submitted against a field
id whose every matching FieldDefinition in the project is soft-deleted
can never be part of a successful create — the per-value field lookup
filters on `is_deleted == False`, so the operation fails.  (The event
path lacks this filter; see the counterexample.) -/
theorem accession_create_rejects_deleted_field (reMatch : String → String → MatchRes)
    (st : AccState) (pid aid : Nat) (l : List (Nat × PyVal)) (nextId now fid : Nat)
    (v : PyVal) (hmem : (fid, v) ∈ l)
    (hdel : ∀ f ∈ st.accFields, f.id = fid → f.scopeId = pid → f.isDeleted = true) :
    ∀ st', create_accession_values reMatch st (some pid) aid (some l) nextId now ≠ .ok st' := by
  intro st' h
  cases l with
  | nil => simp at hmem
  | cons hd tl =>
    rw [create_accession_values_cons] at h
    split at h
    · exact Except.noConfusion h
    next u hreq =>
      split at h
      · exact Except.noConfusion h
      next staged hstage =>
        obtain ⟨f, hf, hid, hsc, hnd, _⟩ :=
          stageAccessionValues_ok_mem reMatch st.accFields pid aid (hd :: tl)
            nextId now staged hstage fid v hmem
        have hdt := hdel f hf hid hsc
        rw [hdt] at hnd
        exact Bool.noConfusion hnd

/-- C4 amended: whenever the required-field check actually runs — on
accession create only for a nonempty submission, and on accession update
for every provided submission, the empty one included — a missing active
required field fails the whole operation with the 400 naming every
missing field by name, so no FieldValue is committed.  (On create, an
empty or absent submission bypasses the check; see the
counterexample.) -/
theorem required_field_gate_nonempty (reMatch : String → String → MatchRes)
    (st : AccState) (pid aid nextId now : Nat) (l : List (Nat × PyVal))
    (hmiss : missingRequiredNames st.accFields pid (l.map (·.1)) ≠ []) :
    (l ≠ [] → create_accession_values reMatch st (some pid) aid (some l) nextId now =
       .error (.badRequest ("Missing required fields: "
         ++ String.intercalate ", " (missingRequiredNames st.accFields pid (l.map (·.1))))))
    ∧ update_accession_values reMatch st (some pid) aid (some l) nextId now =
       .error (.badRequest ("Missing required fields: "
         ++ String.intercalate ", " (missingRequiredNames st.accFields pid (l.map (·.1))))) := by
  have hempty : (missingRequiredNames st.accFields pid (l.map (·.1))).isEmpty = false := by
    cases hm : missingRequiredNames st.accFields pid (l.map (·.1)) with
    | nil => exact absurd hm hmiss
    | cons a b => rfl
  have hreq : validate_required_fields st.accFields pid l =
      .error (.badRequest ("Missing required fields: "
        ++ String.intercalate ", " (missingRequiredNames st.accFields pid (l.map (·.1))))) := by
    simp only [validate_required_fields, hempty, Bool.false_eq_true, if_false]
  constructor
  · intro hne
    cases l with
    | nil => exact absurd rfl hne
    | cons hd tl =>
      rw [create_accession_values_cons, hreq]
  · simp only [update_accession_values]
    rw [hreq, except_bind_error]

theorem stageAccessionValues_ok_owner (reMatch : String → String → MatchRes)
    (fields : List FieldDef) (pid aid : Nat) (l : List (Nat × PyVal))
    (nextId now : Nat) :
    ∀ staged, stageAccessionValues reMatch fields pid aid l nextId now = .ok staged →
      ∀ fv ∈ staged, fv.ownerId = aid := by
  induction l generalizing nextId with
  | nil =>
    intro staged h fv hm
    simp only [stageAccessionValues] at h
    injection h with h'
    subst h'
    simp at hm
  | cons hd tl ih =>
    obtain ⟨fid0, v0⟩ := hd
    intro staged h fv hm
    rw [stageAccessionValues_cons] at h
    split at h
    · exact Except.noConfusion h
    next f hf =>
      split at h
      · exact Except.noConfusion h
      next u hv =>
        split at h
        · exact Except.noConfusion h
        next staged' hr =>
          injection h with h'
          subst h'
          rcases List.mem_cons.mp hm with heq | hmem
          · rw [heq]
          · exact ih (nextId + 1) staged' hr fv hmem

theorem stageLocationValues_cons (activeFields : List FieldDef) (lid fid : Nat)
    (v : PyVal) (rest : List (Nat × PyVal)) (nextId now : Nat) :
    stageLocationValues activeFields lid ((fid, v) :: rest) nextId now =
      (match activeFields.find? (fun f => f.id == fid) with
       | none => .error (.badRequest ("Field " ++ toString fid
           ++ " not found in location type"))
       | some f =>
         match (if f.fieldType == FieldType.number then
                 match pyFloat v with
                 | none => Except.error VErr.uncaughtValueError
                 | some q => Except.ok (some q)
               else Except.ok none) with
         | .error e => .error e
         | .ok num =>
           match stageLocationValues activeFields lid rest (nextId + 1) now with
           | .error e => .error e
           | .ok staged =>
             .ok ({ id := nextId, ownerId := lid, fieldId := f.id,
                    valueString := if f.fieldType == .string then some (pyStr v) else none,
                    valueNumber := num,
                    createdAt := now, updatedAt := now } :: staged)) := by
  simp only [stageLocationValues]
  split
  next => rfl
  next f hf =>
    by_cases hty : (f.fieldType == FieldType.number) = true
    · simp only [hty, if_true]
      cases hpf : pyFloat v with
      | none => rfl
      | some q =>
        cases hr : stageLocationValues activeFields lid rest (nextId + 1) now with
        | error e => rfl
        | ok staged => rfl
    · simp only [hty, if_false]
      cases hr : stageLocationValues activeFields lid rest (nextId + 1) now with
      | error e => rfl
      | ok staged => rfl

theorem stageLocationValues_ok_owner (activeFields : List FieldDef) (lid : Nat)
    (l : List (Nat × PyVal)) (nextId now : Nat) :
    ∀ staged, stageLocationValues activeFields lid l nextId now = .ok staged →
      ∀ fv ∈ staged, fv.ownerId = lid := by
  induction l generalizing nextId with
  | nil =>
    intro staged h fv hm
    simp only [stageLocationValues] at h
    injection h with h'
    subst h'
    simp at hm
  | cons hd tl ih =>
    obtain ⟨fid0, v0⟩ := hd
    intro staged h fv hm
    rw [stageLocationValues_cons] at h
    split at h
    · exact Except.noConfusion h
    next f hf =>
      split at h
      · exact Except.noConfusion h
      next num hnum =>
        split at h
        · exact Except.noConfusion h
        next staged' hr =>
          injection h with h'
          subst h'
          rcases List.mem_cons.mp hm with heq | hmem
          · rw [heq]
          · exact ih (nextId + 1) staged' hr fv hmem

/-- C8: field-value update is an atomic whole-set replacement on both
the accession and the location path — a successful update leaves exactly
the staged values for the owner appended to the other owners' untouched
values (every prior value of the owner is removed, every staged value
belongs to the owner), and any failure aborts the request transaction
with the owner's FieldValue set unchanged. -/
theorem update_values_atomic_replacement (reMatch : String → String → MatchRes)
    (st : AccState) (lst : LocState) (pid aid ltid lid : Nat)
    (l l2 : List (Nat × PyVal)) (nextId now : Nat) :
    (∀ st', update_accession_values reMatch st (some pid) aid (some l) nextId now = .ok st' →
       ∃ staged, stageAccessionValues reMatch st.accFields pid aid l nextId now = .ok staged ∧
         st'.accFields = st.accFields ∧
         st'.accValues = (st.accValues.filter (fun fv => fv.ownerId != aid)) ++ staged ∧
         ∀ fv ∈ staged, fv.ownerId = aid)
    ∧ (∀ e, update_accession_values reMatch st (some pid) aid (some l) nextId now = .error e →
        runTxn st (update_accession_values reMatch st (some pid) aid (some l) nextId now)
          = (st, some e))
    ∧ (∀ st', update_location_values lst ltid lid (some l2) nextId now = .ok st' →
       ∃ staged, stageLocationValues
           (lst.locFields.filter (fun f => f.scopeId == ltid && !f.isDeleted))
           lid l2 nextId now = .ok staged ∧
         st'.locFields = lst.locFields ∧
         st'.locValues = (lst.locValues.filter (fun fv => fv.ownerId != lid)) ++ staged ∧
         ∀ fv ∈ staged, fv.ownerId = lid)
    ∧ (∀ e, update_location_values lst ltid lid (some l2) nextId now = .error e →
        runTxn lst (update_location_values lst ltid lid (some l2) nextId now)
          = (lst, some e)) := by
  refine ⟨?_, ?_, ?_, ?_⟩
  · intro st' h
    simp only [update_accession_values] at h
    cases hreq : validate_required_fields st.accFields pid l with
    | error e =>
      rw [hreq, except_bind_error] at h
      exact Except.noConfusion h
    | ok u =>
      cases u
      rw [hreq, except_bind_ok] at h
      cases hst : stageAccessionValues reMatch st.accFields pid aid l nextId now with
      | error e =>
        rw [hst, except_bind_error] at h
        exact Except.noConfusion h
      | ok staged =>
        rw [hst, except_bind_ok] at h
        injection h with h'
        subst h'
        exact ⟨staged, rfl, rfl, rfl,
          stageAccessionValues_ok_owner reMatch st.accFields pid aid l nextId now staged hst⟩
  · intro e h
    simp only [runTxn, h]
  · intro st' h
    simp only [update_location_values] at h
    cases hst : stageLocationValues
        (lst.locFields.filter (fun f => f.scopeId == ltid && !f.isDeleted))
        lid l2 nextId now with
    | error e =>
      rw [hst, except_bind_error] at h
      exact Except.noConfusion h
    | ok staged =>
      rw [hst, except_bind_ok] at h
      injection h with h'
      subst h'
      exact ⟨staged, rfl, rfl, rfl,
        stageLocationValues_ok_owner
          (lst.locFields.filter (fun f => f.scopeId == ltid && !f.isDeleted))
          lid l2 nextId now staged hst⟩
  · intro e h
    simp only [runTxn, h]

/-- C5 amended: the projection is a pure function of the stored data and
the call-time clock, and the clock reaches only the placeholder rows'
timestamps — after erasing the `utcnow()` timestamps of placeholder rows
(null-id rows), two projections of the same unchanged data taken at any
two times are identical, in identical order. -/
theorem projection_stable_up_to_placeholder_times (db : List FieldDef)
    (values : List FieldValue) (aid : Nat) (projectId : Option Nat) (t1 t2 : Nat) :
    (project_accession_rows db values aid projectId t1).map scrubPlaceholderTimes =
    (project_accession_rows db values aid projectId t2).map scrubPlaceholderTimes := by
  cases projectId with
  | none => rfl
  | some pid =>
    simp only [project_accession_rows]
    rw [List.map_map, List.map_map]
    apply List.map_congr_left
    intro f _
    simp only [Function.comp]
    cases hfv : (values.filter (fun fv => fv.ownerId == aid)).find?
        (fun fv => fv.fieldId == f.id) with
    | some fv => rfl
    | none => rfl

theorem get_project_fields_subset (db : List FieldDef) (pid : Nat) (incl : Bool)
    (f : FieldDef) (h : f ∈ get_project_fields db pid incl) : f ∈ db := by
  simp only [get_project_fields] at h
  have h2 := (List.perm_insertionSort fieldLE _).mem_iff.mp h
  cases incl with
  | true =>
    simp only [if_pos] at h2
    exact List.mem_of_mem_filter h2
  | false =>
    simp only [Bool.false_eq_true, if_false] at h2
    exact List.mem_of_mem_filter (List.mem_of_mem_filter h2)

/-- C6: for an owner with a project association, the projection returns
exactly one row per active FieldDefinition of the project, the rows'
field ids are exactly the active definitions' ids in their
`(display_order, name)` sorted order, a row's value is non-null iff the
owner has a FieldValue for that field, and a field without a FieldValue
yields a placeholder row with a null id and null value.  `hwf` is the
data-model invariant that a stored value populates the storage column
selected by its definition's `value_kind`. -/
theorem projection_completeness (db : List FieldDef) (values : List FieldValue)
    (aid pid now : Nat)
    (hwf : ∀ fv ∈ values, ∀ f ∈ db, fv.fieldId = f.id →
      (f.fieldType = .string → fv.valueString.isSome) ∧
      (f.fieldType = .number → fv.valueNumber.isSome)) :
    (project_accession_rows db values aid (some pid) now).length =
        (get_project_fields db pid false).length
    ∧ (project_accession_rows db values aid (some pid) now).map (·.fieldId) =
        (get_project_fields db pid false).map (·.id)
    ∧ List.Sorted fieldLE (get_project_fields db pid false)
    ∧ (∀ r ∈ project_accession_rows db values aid (some pid) now,
        (r.value.isSome ↔ ∃ fv ∈ values, fv.ownerId = aid ∧ fv.fieldId = r.fieldId))
    ∧ (∀ r ∈ project_accession_rows db values aid (some pid) now,
        (¬ ∃ fv ∈ values, fv.ownerId = aid ∧ fv.fieldId = r.fieldId) →
          r.id = none ∧ r.value = none) := by
  refine ⟨?_, ?_, ?_, ?_, ?_⟩
  · simp only [project_accession_rows]
    exact List.length_map _ _
  · simp only [project_accession_rows]
    rw [List.map_map]
    apply List.map_congr_left
    intro f _
    simp only [Function.comp]
    cases hfv : (values.filter (fun fv => fv.ownerId == aid)).find?
        (fun fv => fv.fieldId == f.id) with
    | some fv =>
      have hpred := List.find?_some hfv
      simp only [beq_iff_eq] at hpred
      exact hpred
    | none => rfl
  · simp only [get_project_fields]
    exact List.sorted_insertionSort fieldLE _
  · intro r hr
    simp only [project_accession_rows, List.mem_map] at hr
    obtain ⟨f, hfD, hfr⟩ := hr
    subst hfr
    cases hfv : (values.filter (fun fv => fv.ownerId == aid)).find?
        (fun fv => fv.fieldId == f.id) with
    | some fv =>
      simp only [hfv]
      have hmem := List.mem_of_find?_eq_some hfv
      have hpred := List.find?_some hfv
      simp only [beq_iff_eq] at hpred
      have hmem2 := List.mem_filter.mp hmem
      obtain ⟨hinv, hown⟩ := hmem2
      simp only [beq_iff_eq] at hown
      constructor
      · intro _
        exact ⟨fv, hinv, hown, rfl⟩
      · intro _
        have hfdb := get_project_fields_subset db pid false f hfD
        have hw := hwf fv hinv f hfdb hpred
        cases hty : f.fieldType with
        | string =>
          simp only [extractValue, hty]
          obtain ⟨s, hs⟩ := Option.isSome_iff_exists.mp (hw.1 hty)
          rw [hs]
          rfl
        | number =>
          simp only [extractValue, hty]
          obtain ⟨q, hq⟩ := Option.isSome_iff_exists.mp (hw.2 hty)
          rw [hq]
          rfl
    | none =>
      simp only [hfv]
      constructor
      · intro hc
        exact absurd hc (by simp)
      · rintro ⟨fv, hinv, hown, hfid⟩
        have hnone := List.find?_eq_none.mp hfv fv
          (List.mem_filter.mpr ⟨hinv, by simp [hown]⟩)
        simp only [beq_iff_eq] at hnone
        exact absurd hfid hnone
  · intro r hr hno
    simp only [project_accession_rows, List.mem_map] at hr
    obtain ⟨f, hfD, hfr⟩ := hr
    subst hfr
    cases hfv : (values.filter (fun fv => fv.ownerId == aid)).find?
        (fun fv => fv.fieldId == f.id) with
    | some fv =>
      exfalso
      apply hno
      simp only [hfv]
      have hmem := List.mem_of_find?_eq_some hfv
      have hpred := List.find?_some hfv
      simp only [beq_iff_eq] at hpred
      obtain ⟨hinv, hown⟩ := List.mem_filter.mp hmem
      simp only [beq_iff_eq] at hown
      exact ⟨fv, hinv, hown, rfl⟩
    | none =>
      simp only [hfv]
      constructor <;> trivial

/-- C7 amended: the accession-field create and update operations do
maintain active-name uniqueness — creating a field whose name collides
with an *active* field of the same project fails, a name used only by
soft-deleted fields is reusable, and a rename colliding with a different
active field fails.  (The location-type batch field update and the
event-type field operations perform no such check; see the
counterexample.) -/
theorem accession_field_name_uniqueness (db : List FieldDef) (pid : Nat)
    (data : FieldCreateData) (newId : Nat) (patch : AccFieldPatch) (fid : Nat) :
    ((∃ f ∈ db, f.scopeId = pid ∧ f.fieldName = data.fieldName ∧ f.isDeleted = false) →
       ∃ msg, create_project_field db pid data newId = .error (.badRequest msg))
    ∧ ((∀ f ∈ db, f.scopeId = pid → f.fieldName = data.fieldName → f.isDeleted = true) →
       ∃ db', create_project_field db pid data newId = .ok db')
    ∧ (∀ f n, db.find? (fun g => g.id == fid) = some f → f.scopeId = pid →
        patch.fieldName = some n → n ≠ "" → n ≠ f.fieldName →
        (∃ g ∈ db, g.scopeId = pid ∧ g.fieldName = n ∧ g.isDeleted = false ∧ g.id ≠ fid) →
        ∃ msg, update_project_field db pid fid patch = .error (.badRequest msg)) := by
  refine ⟨?_, ?_, ?_⟩
  · rintro ⟨f, hf, hsc, hname, hdel⟩
    have hsome : (db.find? (fun g => g.scopeId == pid && g.fieldName == data.fieldName
        && !g.isDeleted)).isSome := by
      rw [List.find?_isSome]
      exact ⟨f, hf, by simp [hsc, hname, hdel]⟩
    obtain ⟨g, hg⟩ := Option.isSome_iff_exists.mp hsome
    have hres : create_project_field db pid data newId =
        .error (.badRequest ("Field " ++ data.fieldName ++ " already exists in this project")) := by
      simp only [create_project_field, hg]
    exact ⟨_, hres⟩
  · intro hall
    have hnone : db.find? (fun g => g.scopeId == pid && g.fieldName == data.fieldName
        && !g.isDeleted) = none := by
      rw [List.find?_eq_none]
      intro g hg
      by_cases h1 : g.scopeId = pid
      · by_cases h2 : g.fieldName = data.fieldName
        · have h3 := hall g hg h1 h2
          simp [h3]
        · simp [h2]
      · simp [h1]
    have hres : create_project_field db pid data newId =
        .ok (db ++
          [{ id := newId, scopeId := pid, fieldName := data.fieldName,
             fieldType := data.fieldType, isRequired := data.isRequired,
             displayOrder := data.displayOrder, minLength := data.minLength,
             maxLength := data.maxLength, regexPattern := data.regexPattern,
             minValue := data.minValue, maxValue := data.maxValue,
             isDeleted := false, deletedAt := none }]) := by
      simp only [create_project_field, hnone]
    exact ⟨_, hres⟩
  · rintro f n hfind hsc hpn hne hnef ⟨g, hg, hgsc, hgname, hgdel, hgid⟩
    have hconf : (db.find? (fun g2 => g2.scopeId == pid && g2.fieldName == n
        && !g2.isDeleted && g2.id != fid)).isSome := by
      rw [List.find?_isSome]
      exact ⟨g, hg, by simp [hgsc, hgname, hgdel, bne_iff_ne, hgid]⟩
    have hres : update_project_field db pid fid patch =
        .error (.badRequest ("Field " ++ patch.fieldName.getD ""
          ++ " already exists in this project")) := by
      have hb : (n != "" && n != f.fieldName) = true := by
        simp [bne_iff_ne, hne, hnef]
      simp only [update_project_field, hfind, hpn, hsc]
      simp only [bne_self_eq_false, Bool.false_eq_true, if_false]
      simp only [hb, if_true]
      simp only [hconf, if_true]
    exact ⟨_, hres⟩

theorem accession_create_values_validated_witness :
    ∃ f ∈ [mkField 1 2 "Notes" FieldType.string],
      f.id = 1 ∧ f.scopeId = 2 ∧ f.isDeleted = false ∧
      validate_field_value matchAll f (.pstr "hi") = .ok () :=
  accession_create_values_validated matchAll
    ⟨[mkField 1 2 "Notes" FieldType.string], []⟩ 2 11 [(1, .pstr "hi")] 0 0
    ⟨[mkField 1 2 "Notes" FieldType.string], [⟨0, 11, 1, some "hi", none, 0, 0⟩]⟩
    (by decide) 1 (.pstr "hi") (by decide)

theorem accession_create_rejects_deleted_field_witness :
    create_accession_values matchAll
      ⟨[{ mkField 1 2 "Notes" FieldType.string with isDeleted := true }], []⟩
      (some 2) 11 (some [(1, .pstr "x")]) 0 0
      ≠ .ok ⟨[{ mkField 1 2 "Notes" FieldType.string with isDeleted := true }], []⟩ :=
  accession_create_rejects_deleted_field matchAll
    ⟨[{ mkField 1 2 "Notes" FieldType.string with isDeleted := true }], []⟩
    2 11 [(1, .pstr "x")] 0 0 1 (.pstr "x") (by decide) (by decide)
    ⟨[{ mkField 1 2 "Notes" FieldType.string with isDeleted := true }], []⟩

theorem required_field_gate_nonempty_witness :
    create_accession_values matchAll
      ⟨[{ mkField 1 2 "Height" FieldType.number with isRequired := true }], []⟩
      (some 2) 11 (some [(5, PyVal.pint 3)]) 0 0 =
    .error (.badRequest ("Missing required fields: "
      ++ String.intercalate ", " (missingRequiredNames
        [{ mkField 1 2 "Height" FieldType.number with isRequired := true }] 2
        ([((5 : Nat), PyVal.pint 3)].map (·.1))))) :=
  (required_field_gate_nonempty matchAll
      ⟨[{ mkField 1 2 "Height" FieldType.number with isRequired := true }], []⟩
      2 11 0 0 [(5, PyVal.pint 3)] (by decide)).1 (by decide)

theorem projection_completeness_witness :
    (project_accession_rows [mkField 1 2 "Notes" FieldType.string] [] 9 (some 2) 0).length =
        (get_project_fields [mkField 1 2 "Notes" FieldType.string] 2 false).length
    ∧ (project_accession_rows [mkField 1 2 "Notes" FieldType.string] [] 9 (some 2) 0).map (·.fieldId) =
        (get_project_fields [mkField 1 2 "Notes" FieldType.string] 2 false).map (·.id)
    ∧ List.Sorted fieldLE (get_project_fields [mkField 1 2 "Notes" FieldType.string] 2 false)
    ∧ (∀ r ∈ project_accession_rows [mkField 1 2 "Notes" FieldType.string] [] 9 (some 2) 0,
        (r.value.isSome ↔ ∃ fv ∈ ([] : List FieldValue), fv.ownerId = 9 ∧ fv.fieldId = r.fieldId))
    ∧ (∀ r ∈ project_accession_rows [mkField 1 2 "Notes" FieldType.string] [] 9 (some 2) 0,
        (¬ ∃ fv ∈ ([] : List FieldValue), fv.ownerId = 9 ∧ fv.fieldId = r.fieldId) →
          r.id = none ∧ r.value = none) :=
  projection_completeness [mkField 1 2 "Notes" FieldType.string] [] 9 2 0 (by simp)

theorem update_values_atomic_replacement_witness :
    ∃ staged, stageAccessionValues matchAll [mkField 1 2 "Notes" FieldType.string]
        2 11 [(1, .pstr "new")] 0 0 = .ok staged ∧
      (⟨[mkField 1 2 "Notes" FieldType.string],
        [⟨8, 12, 1, some "other", none, 0, 0⟩, ⟨0, 11, 1, some "new", none, 0, 0⟩]⟩ :
          AccState).accFields = [mkField 1 2 "Notes" FieldType.string] ∧
      (⟨[mkField 1 2 "Notes" FieldType.string],
        [⟨8, 12, 1, some "other", none, 0, 0⟩, ⟨0, 11, 1, some "new", none, 0, 0⟩]⟩ :
          AccState).accValues =
        (([⟨7, 11, 1, some "old", none, 0, 0⟩, ⟨8, 12, 1, some "other", none, 0, 0⟩] :
            List FieldValue).filter (fun fv => fv.ownerId != 11)) ++ staged ∧
      ∀ fv ∈ staged, fv.ownerId = 11 :=
  (update_values_atomic_replacement matchAll
      ⟨[mkField 1 2 "Notes" FieldType.string],
       [⟨7, 11, 1, some "old", none, 0, 0⟩, ⟨8, 12, 1, some "other", none, 0, 0⟩]⟩
      ⟨[], []⟩ 2 11 0 0 [(1, .pstr "new")] [] 0 0).1
    ⟨[mkField 1 2 "Notes" FieldType.string],
     [⟨8, 12, 1, some "other", none, 0, 0⟩, ⟨0, 11, 1, some "new", none, 0, 0⟩]⟩
    (by decide)

theorem validate_string_spec_witness :
    validate_field_value matchAll
      { mkField 1 2 "Code" FieldType.string with
        minLength := some 1, maxLength := some 3, regexPattern := some "ab" }
      (.pstr "ab") = .ok () :=
  ((validate_string_spec matchAll
      { mkField 1 2 "Code" FieldType.string with
        minLength := some 1, maxLength := some 3, regexPattern := some "ab" }
      "ab" rfl rfl).1).mpr
    ⟨fun m hm => by injection hm with e; subst e; decide,
     fun m hm => by injection hm with e; subst e; decide,
     fun p _ => rfl⟩

theorem validate_number_bool_invalid_operation_witness :
    validate_field_value matchAll (mkField 3 4 "W" FieldType.number) (.pbool false)
      = .error .uncaughtInvalidOperation :=
  validate_number_bool_invalid_operation matchAll (mkField 3 4 "W" FieldType.number) false rfl

theorem accession_field_name_uniqueness_witness :
    ∃ msg, create_project_field [mkField 1 5 "A" FieldType.string] 5
      ⟨"A", FieldType.string, false, 0, none, none, none, none, none⟩ 9
      = .error (.badRequest msg) :=
  (accession_field_name_uniqueness [mkField 1 5 "A" FieldType.string] 5
      ⟨"A", FieldType.string, false, 0, none, none, none, none, none⟩ 9
      ⟨none, none, none, none, none, none, none, none⟩ 1).1
    ⟨mkField 1 5 "A" FieldType.string, by decide, by decide, by decide, by decide⟩
